import Mathlib

/-!
Verification development for the sphinx-docfx-yaml documentation object
model builder.  The definitions below are a shallow embedding of the two
source modules:

* `src/docfx_yaml/extension.py` — symbol registry, record builder,
  hierarchy linker (insert_children), inheritance resolver
  (insert_inheritance), and the per-event driver (process_docstring);
* `src/docfx_yaml/monkeypatch.py` — the field-data normalizer
  (get_data_structure, make_param) and the empty-value pruning done at the
  end of PatchedDocFieldTransformer.transform_all.

External collaborators (Sphinx, docutils doctrees, the rich-text renderer
transform_node from docfx_yaml/utils.py, git introspection, file IO) are
modelled at their interface boundary: rich-text nodes appear as the plain
strings the renderer produces for them, and the source-location block,
which is filled from inspect/git and never read by the logic under
verification, is not modelled.
-/

namespace DocfxYaml

/-! ## String helpers mirroring the Python primitives used by the source -/

/-- Python `name.split('.')` on a list of characters: accumulates the
current piece in reverse.  `''.split('.') == ['']`, matching Python. -/
def splitDotAux : List Char → List Char → List String
  | [], acc => [String.mk acc.reverse]
  | c :: cs, acc =>
    if c = '.' then String.mk acc.reverse :: splitDotAux cs []
    else splitDotAux cs (c :: acc)

/-- Python `s.split('.')`. -/
def splitDot (s : String) : List String := splitDotAux s.data []

/-- Python `'.'.join(parts)`. -/
def joinDot (parts : List String) : String := String.intercalate "." parts

/-- Python `parts[-1]` on the (always non-empty) result of a split. -/
def lastSeg (s : String) : String := (splitDot s).getLastD ""

/-- Python `s.rstrip('\n')`: drop every trailing newline character. -/
def pyRstripNewline (s : String) : String :=
  String.mk (s.data.reverse.dropWhile (fun c => c == '\n')).reverse

/-- Python `s.startswith(c)` for a one-character prefix. -/
def pyStartsWith (s : String) (c : Char) : Bool :=
  match s.data with
  | d :: _ => d == c
  | [] => false

/-- Python `s[1:]`. -/
def pyDropFirst (s : String) : String := String.mk (s.data.drop 1)

/-- Python `re.split(' or[ \n]', s)` over the character list: scan left to
right for the four-character separator (space, 'o', 'r', then a space or a
newline); each separator found closes the current piece.  The accumulator
holds the current piece reversed. -/
def splitOrAux : List Char → List Char → List (List Char)
  | [], acc => [acc.reverse]
  | ' ' :: 'o' :: 'r' :: ' ' :: rest, acc => acc.reverse :: splitOrAux rest []
  | ' ' :: 'o' :: 'r' :: '\n' :: rest, acc => acc.reverse :: splitOrAux rest []
  | c :: rest, acc => splitOrAux rest (c :: acc)

/-- Python `re.split(' or[ \n]', s)` as used for union-type text. -/
def splitOr (s : String) : List String :=
  (splitOrAux s.data []).map fun l => String.mk l

/-! ## extension.py — data model -/

/-- The `TYPE_MAPPING` dict of extension.py, as an association list in
source order. -/
def TYPE_MAPPING : List (String × String) :=
  [("method", "Method"), ("function", "Method"), ("module", "Namespace"),
   ("class", "Class"), ("exception", "Class"), ("attribute", "Property")]

/-- Python `TYPE_MAPPING[_type]` returning `none` for a missing key. -/
def lookupTypeMapping (t : String) : Option String :=
  (TYPE_MAPPING.find? fun kv => kv.1 == t).map fun kv => kv.2

/-- The `mapped_type` computation of `_create_datam`.  The source wraps the
dict lookup in `try ... except TypeError`, but a missing string key raises
`KeyError`, which that handler does not catch, so a missing key propagates
as an uncaught error and the handler's assignment `mapped_type = _type`
never runs; a present key returns its value. -/
def createDatamMappedType (t : String) : Except String String :=
  match lookupTypeMapping t with
  | some m => Except.ok m
  | none => Except.error ("KeyError: " ++ t)

/-- `_get_cls_module(_type, name)`: `(cls, module)` with `none` standing
for Python `None`. -/
def get_cls_module (t name : String) : Option String × Option String :=
  if t = "function" ∨ t = "exception" then
    (none, some (joinDot ((splitDot name).dropLast)))
  else if t = "method" ∨ t = "attribute" then
    (some (joinDot ((splitDot name).dropLast)),
     some (joinDot ((splitDot name).dropLast.dropLast)))
  else if t = "class" then
    (none, some (joinDot ((splitDot name).dropLast)))
  else if t = "module" then
    (none, some name)
  else
    (none, none)

/-- One symbol record (a `datam` dict of extension.py).  `type` holds the
mapped DocFX category, `rawType` the dict's `_type` key (the raw discovery
kind), `cls` the dict's `class` key (a Lean keyword).  `children` and
`inheritance` are `Option` because the corresponding dict keys are present
only on some records.  The `source` block (git remote, path, start line)
is filled from external introspection and never read by the logic under
verification, so it is not modelled. -/
structure Datam where
  module : String
  uid : String
  type : String
  rawType : String
  name : String
  fullName : String
  summary : String
  langs : List String := []
  cls : Option String := none
  children : Option (List String) := none
  inheritance : Option (List String) := none
deriving Repr, DecidableEq

/-! ## extension.py — inheritance resolver -/

mutual
/-- A Python class object as the inheritance resolver sees it: its
`_fullname` (module + "." + name) and its `__bases__`.  The mutual shape
stands for a rose tree; `PyBases` plays the role of the bases list. -/
inductive PyObj : Type where
  | mk (fullname : String) (bases : PyBases)
deriving Repr, DecidableEq

/-- The `__bases__` tuple of a `PyObj`. -/
inductive PyBases : Type where
  | nil : PyBases
  | cons : PyObj → PyBases → PyBases
deriving Repr, DecidableEq
end

/-- The `_fullname(obj)` helper. -/
def PyObj.fullname : PyObj → String
  | .mk n _ => n

mutual
/-- `insert_inheritance`: for each base append `_fullname(base)` to the
record's inheritance list, then recurse into that base; the accumulator is
the list built so far (the source mutates `datam['inheritance']` in
place).  Classes always expose `__bases__`, so the source's `hasattr`
guard is always true on the objects modelled here; `process_docstring`
below models a discovery event without `__bases__` as `none` bases. -/
def insert_inheritance : PyObj → List String → List String
  | .mk _ bs, acc => insertBases bs acc

/-- The `for base in obj.__bases__` loop body of `insert_inheritance`. -/
def insertBases : PyBases → List String → List String
  | .nil, acc => acc
  | .cons b bs, acc => insertBases bs (insert_inheritance b (acc ++ [b.fullname]))
end

/-! ## extension.py — hierarchy linker -/

/-- The condition of the `if/elif` chain in `insert_children` deciding
whether candidate record `obj` becomes the parent of the new record
`datam` of kind `t`.  For a fixed kind at most one of the three rules can
apply, so the chain collapses to a disjunction. -/
def matchesRule (t : String) (datam obj : Datam) : Bool :=
  ((t == "method" || t == "attribute") && obj.rawType == "class"
      && some obj.uid == datam.cls)
  || (t == "function" && obj.rawType == "class"
      && obj.name == datam.module ++ ".Global")
  || ((t == "class" || t == "exception") && obj.rawType == "module"
      && obj.module == datam.module)

/-- Append a child uid to a record's children list.  The source does
`obj['children'].append(...)`; every record the three rules can select is
class- or module-kind and is built with a `children` list, so the absent
case (modelled with `getD []`) is unreachable from `process_docstring`. -/
def appendChild (uid : String) (obj : Datam) : Datam :=
  { obj with children := some (obj.children.getD [] ++ [uid]) }

/-- `insert_children`: scan the module's record list in insertion order
and append `datam['uid']` to the children of the first record matching one
of the three kind-specific rules, stopping at the first match (`break`). -/
def insert_children (t : String) (datam : Datam) : List Datam → List Datam
  | [] => []
  | obj :: rest =>
    if matchesRule t datam obj then appendChild datam.uid obj :: rest
    else obj :: insert_children t datam rest

/-! ## extension.py — registry and per-event driver -/

/-- `app.env.docfx_yaml_modules`: a dict from module name to its record
list, modelled as an association list with unique keys. -/
abbrev Registry := List (String × List Datam)

/-- Dict read with a default (the driver only reads keys it has written). -/
def registryGetD (reg : Registry) (m : String) : List Datam :=
  ((reg.find? fun kv => kv.1 == m).map fun kv => kv.2).getD []

/-- Whether the dict has the key. -/
def registryHas (reg : Registry) (m : String) : Bool :=
  (reg.find? fun kv => kv.1 == m).isSome

/-- `modules[m] = [d]` when absent, `modules[m].append(d)` when present. -/
def registryAppend (reg : Registry) (m : String) (d : Datam) : Registry :=
  if registryHas reg m then
    reg.map fun kv => if kv.1 == m then (kv.1, kv.2 ++ [d]) else kv
  else
    reg ++ [(m, [d])]

/-- Replace the record list stored under a key. -/
def registryUpdate (reg : Registry) (m : String) (f : List Datam → List Datam) :
    Registry :=
  reg.map fun kv => if kv.1 == m then (kv.1, f kv.2) else kv

/-- `_create_datam` (minus the unread source-location block), fused with
the subsequent `insert_inheritance` call of `process_docstring`: the
source first appends the dict to the registry and then mutates the same
dict object in place, which a pure embedding renders by computing the
inheritance list before insertion (`insert_children` never reads it).
`bases = none` models an object without `__bases__`. -/
def create_datam (cls? : Option String) (module name t : String)
    (lines : List String) (bases : Option PyBases) : Datam :=
  { module := module
    uid := name
    type := (lookupTypeMapping t).getD t
    rawType := t
    name := lastSeg name
    fullName := name
    summary := String.intercalate "\n" lines
    cls := match cls? with
      | some c => if c = "" then none else some c
      | none => none
    children := if t = "class" ∨ t = "module" then some [] else none
    inheritance := match bases with
      | some bs => some (insertBases bs [])
      | none => none }

/-- The synthetic Global holder appended right after a module record;
`origName` is the `name` argument of the surrounding event (the source
stores it under `fullName`). -/
def globalHolder (module origName : String) : Datam :=
  { module := module
    uid := module ++ ".Global"
    type := "Class"
    rawType := "class"
    name := lastSeg module ++ ".Global"
    fullName := origName
    summary := "Proxy object to hold module level functions"
    langs := ["python"]
    children := some [] }

/-- `process_docstring`: one discovery event.  Returns the new registry
and the diagnostic printed when the event is dropped (`None`-or-empty
module, the Python `if not module:` test).  The happy path appends the
record, appends the Global holder when the kind is `module`, and runs the
hierarchy linker over the module's list. -/
def process_docstring (reg : Registry) (t name : String)
    (bases : Option PyBases) (lines : List String) :
    Registry × Option String :=
  let cm := get_cls_module t name
  match cm.2 with
  | none => (reg, some ("Unknown Type: " ++ t))
  | some module =>
    if module = "" then (reg, some ("Unknown Type: " ++ t))
    else
      let datam := create_datam cm.1 module name t lines bases
      let reg1 := registryAppend reg module datam
      let reg2 :=
        if t = "module" then registryAppend reg1 module (globalHolder module name)
        else reg1
      (registryUpdate reg2 datam.module (insert_children t datam), none)

/-! ## monkeypatch.py — field data normalizer

The entries and type table produced by `_hacked_transform` are consumed by
`get_data_structure`.  Rich-text nodes are modelled as the strings the
external renderer `transform_node` / `transform_para` produces for them
(the empty string models a falsy render result). -/

/-- One entry of the `_hacked_transform` output, by field kind.  Grouped
kinds carry their (argument name, rendered description) pairs; `returntype`
carries the rendered text of each content node; `returnvalue` the rendered
text of its first content node; a raw `nodes.field` passes through and is
ignored by `get_data_structure`. -/
inductive Entry : Type where
  | passthrough : Entry
  | exceptionsE (items : List (String × String)) : Entry
  | returntypeE (texts : List String) : Entry
  | returnvalueE (text : String) : Entry
  | parameterE (items : List (String × String)) : Entry
  | variableE (items : List (String × String)) : Entry
deriving Repr, DecidableEq

/-- The `types` side table: field kind → argument name → the joined
rendered declared-type text (`u''.join(transform_para(n) ...)`). -/
abbrev TypeTable := List (String × List (String × String))

/-- `types.get(kind, {})[field]` as an optional lookup; `none` models the
`if field in fieldtypes` test failing. -/
def lookupType (tt : TypeTable) (kind field : String) : Option String :=
  match (tt.find? fun kv => kv.1 == kind).map (fun kv => kv.2) with
  | none => none
  | some m => (m.find? fun kv => kv.1 == field).map fun kv => kv.2

/-- A `parameters[]` / `variables[]` element.  The `type` slot holds
`Option String` elements because the variable branch of the source can
append Python `None` into the list. -/
structure ParamData where
  id : String
  description : String
  type : Option (List (Option String)) := none
deriving Repr, DecidableEq

/-- An `exceptions[]` element; entries contributed by the `Raises` scan
carry no description key. -/
structure ExcData where
  type : String
  description : Option String := none
deriving Repr, DecidableEq

/-- The `return` dict; `type` is `none` until the first candidate is
appended (`setdefault('type', []).append(...)`). -/
structure ReturnData where
  type : Option (List String) := none
  description : Option String := none
deriving Repr, DecidableEq

/-- The dict `get_data_structure` builds: the four top-level keys it
initializes. -/
structure DataBlock where
  parameters : List ParamData := []
  vars : List ParamData := []
  exceptions : List ExcData := []
  ret : ReturnData := {}
deriving Repr, DecidableEq

/-- `make_param`: the `type` key is added only when the list is truthy
(non-empty). -/
def make_param (id desc : String) (types : List (Option String)) : ParamData :=
  { id := id, description := desc
    type := if types.isEmpty then none else some types }

/-- Normalization of one return-type candidate: strip a single leading
`@` or `~`, then `rstrip('\n')` unconditionally (the `rstrip` sits on the
`append` line of the source). -/
def returnNormalize (s : String) : String :=
  pyRstripNewline
    (if pyStartsWith s '@' || pyStartsWith s '~' then pyDropFirst s else s)

/-- Normalization of one parameter-type candidate: in the parameter branch
the `rstrip('\n')` sits inside the sigil `if`, so a candidate without a
leading `@` or `~` keeps its trailing newline. -/
def paramNormalize (s : String) : String :=
  if s != "" && (pyStartsWith s '@' || pyStartsWith s '~') then
    pyRstripNewline (pyDropFirst s)
  else s

/-- The candidates one `returntype` entry contributes: each rendered text,
when truthy, is split on `' or[ \n]'` and each piece normalized. -/
def retCandidates (texts : List String) : List String :=
  (texts.map fun t =>
    if t == "" then [] else (splitOr t).map returnNormalize).flatten

/-- The `_para_types` list built for one parameter item with declared type
text `t`: split and normalize only when `t` is truthy. -/
def paramTypes (t : Option String) : List (Option String) :=
  match t with
  | some tv =>
    if tv == "" then []
    else (splitOr tv).map fun s => some (paramNormalize s)
  | none => []

/-- One iteration of the entry loop of `get_data_structure`.  `raises` is
what `extract_exception_desc(field_object)` returns (the reference targets
of the `Raises` scan), appended after the item loop of every parameter or
variable entry. -/
def stepEntry (tt : TypeTable) (raises : List String) (d : DataBlock)
    (e : Entry) : DataBlock :=
  match e with
  | .passthrough => d
  | .exceptionsE items =>
    { d with exceptions := d.exceptions ++
        items.map fun it => { type := it.1, description := some it.2 } }
  | .returntypeE texts =>
    let cands := retCandidates texts
    let newType :=
      if cands.isEmpty then d.ret.type
      else some (d.ret.type.getD [] ++ cands)
    { d with ret := { d.ret with type := newType } }
  | .returnvalueE text =>
    if text == "" then d
    else { d with ret := { d.ret with description := some text } }
  | .parameterE items =>
    let d1 := items.foldl (fun d it =>
      { d with parameters := d.parameters ++
          [make_param it.1 it.2 (paramTypes (lookupType tt "parameter" it.1))] }) d
    { d1 with exceptions := d1.exceptions ++
        raises.map fun r => { type := r } }
  | .variableE items =>
    let d1 := items.foldl (fun d it =>
      { d with vars := d.vars ++
          [make_param it.1 it.2 [lookupType tt "variable" it.1]] }) d
    { d1 with exceptions := d1.exceptions ++
        raises.map fun r => { type := r } }

/-- `get_data_structure(entries, types, field_object)`. -/
def get_data_structure (entries : List Entry) (tt : TypeTable)
    (raises : List String) : DataBlock :=
  entries.foldl (stepEntry tt raises) {}

/-! ## monkeypatch.py — transform_all's empty-value pruning -/

/-- A Python value as stored in the `data` dict of `transform_all`; `noneV`
is Python `None` (it can occur inside a variable's type list). -/
inductive PyVal : Type where
  | str (s : String) : PyVal
  | list (l : List PyVal) : PyVal
  | dict (entries : List (String × PyVal)) : PyVal
  | noneV : PyVal

/-- Python falsiness of the stored values: empty string, empty list,
empty dict, `None`. -/
def pyFalsy : PyVal → Bool
  | .str s => s == ""
  | .list l => l.isEmpty
  | .dict l => l.isEmpty
  | .noneV => true

/-- An optional string as Python stores it. -/
def optVal (s : Option String) : PyVal :=
  match s with
  | some v => .str v
  | none => .noneV

/-- A `parameters[]` / `variables[]` element as a Python dict, key order
as `make_param` builds it. -/
def paramVal (p : ParamData) : PyVal :=
  .dict ([("id", .str p.id), ("description", .str p.description)] ++
    (match p.type with
     | some ts => [("type", .list (ts.map optVal))]
     | none => []))

/-- An `exceptions[]` element as a Python dict. -/
def excVal (e : ExcData) : PyVal :=
  .dict ([("type", .str e.type)] ++
    (match e.description with
     | some dsc => [("description", .str dsc)]
     | none => []))

/-- The `return` dict as a Python value. -/
def returnVal (r : ReturnData) : PyVal :=
  .dict ((match r.type with
     | some ts => [("type", .list (ts.map PyVal.str))]
     | none => []) ++
    (match r.description with
     | some dsc => [("description", .str dsc)]
     | none => []))

/-- The four pairs `data.update(_data)` merges into `transform_all`'s
`data` dict. -/
def dataPairs (db : DataBlock) : List (String × PyVal) :=
  [("parameters", .list (db.parameters.map paramVal)),
   ("variables", .list (db.vars.map paramVal)),
   ("exceptions", .list (db.exceptions.map excVal)),
   ("return", returnVal db.ret)]

/-- The summary pair: added only when the collected summary list is
truthy. -/
def summaryPairs (summary : List String) : List (String × PyVal) :=
  if summary.isEmpty then []
  else [("summary", .str (String.intercalate "\n" summary))]

/-- The deletion loop closing `transform_all`: every key whose value is
falsy is removed before the dict is stored. -/
def pruneEmpty (d : List (String × PyVal)) : List (String × PyVal) :=
  d.filter fun kv => !pyFalsy kv.2

/-- The dict `transform_all` stores into `docfx_info_field_data`:
`extras` stands for the keys collected before the field-list child
(`added_attribute`, `seealso`, `example`), then the four normalized keys,
then the summary, then the deletion loop.  Keys are unique across the
three parts in the source. -/
def transformAllStored (extras : List (String × PyVal)) (db : DataBlock)
    (summary : List String) : List (String × PyVal) :=
  pruneEmpty (extras ++ dataPairs db ++ summaryPairs summary)

/-! ## Spec-side definitions for refinement comparison -/

mutual
/-- Modelled from the spec's words for the inheritance resolver: the
depth-first flattening of the ancestor set, each ancestor's fully
qualified name listed before its own ancestors (spec section 4.5). -/
def dfsFlatten : PyObj → List String
  | .mk _ bs => dfsFlattenBases bs

/-- Depth-first flattening of a bases list per the spec's words. -/
def dfsFlattenBases : PyBases → List String
  | .nil => []
  | .cons b bs => b.fullname :: (dfsFlatten b ++ dfsFlattenBases bs)
end

/-! ## Helper lemmas -/

mutual
/-- The accumulator-passing resolver equals the accumulator followed by
the depth-first flattening. -/
theorem insert_inheritance_eq_flatten (o : PyObj) (acc : List String) :
    insert_inheritance o acc = acc ++ dfsFlatten o := by
  cases o with
  | mk n bs => simp [insert_inheritance, dfsFlatten, insertBases_eq_flatten bs acc]

/-- Bases-list version of `insert_inheritance_eq_flatten`. -/
theorem insertBases_eq_flatten (bs : PyBases) (acc : List String) :
    insertBases bs acc = acc ++ dfsFlattenBases bs := by
  cases bs with
  | nil => simp [insertBases, dfsFlattenBases]
  | cons b bs' =>
    simp [insertBases, dfsFlattenBases, insertBases_eq_flatten bs',
      insert_inheritance_eq_flatten b, List.append_assoc]
end

/-- A `returntype` entry appends its candidates to the return type list
and touches nothing else of the `return` dict. -/
theorem stepEntry_returntype (tt : TypeTable) (raises : List String)
    (d : DataBlock) (ts : List String) :
    (stepEntry tt raises d (.returntypeE ts)).ret.type.getD []
        = d.ret.type.getD [] ++ retCandidates ts
      ∧ (stepEntry tt raises d (.returntypeE ts)).ret.description
        = d.ret.description := by
  refine ⟨?_, by simp [stepEntry]⟩
  by_cases h : (retCandidates ts).isEmpty
  · simp [stepEntry, h, List.isEmpty_iff.mp h]
  · simp [stepEntry, h]

/-- `getLast?` of a cons via `Option.or`. -/
theorem getLast?_cons_or {α : Type} (a : α) (l : List α) :
    (a :: l).getLast? = l.getLast?.or (some a) := by
  induction l generalizing a with
  | nil => rfl
  | cons b m ih => rw [List.getLast?_cons_cons, ih b]; cases h : m.getLast? <;> rfl

/-- Folding a block of `returnvalue` entries: the stored description is
the last entry whose rendered text is non-empty, else the incoming one. -/
theorem foldl_returnvalue_desc (tt : TypeTable) (raises : List String)
    (ts : List String) :
    ∀ d : DataBlock,
      ((ts.map Entry.returnvalueE).foldl (stepEntry tt raises) d).ret.description
        = ((ts.filter fun s => s != "").getLast?).or d.ret.description := by
  induction ts with
  | nil => intro d; rfl
  | cons t ts ih =>
    intro d
    simp only [List.map_cons, List.foldl_cons]
    by_cases h : t = ""
    · subst h
      rw [ih]
      simp [stepEntry]
    · have hb : (t == "") = false := by simp [h]
      rw [ih]
      have hdesc : (stepEntry tt raises d (.returnvalueE t)).ret.description
          = some t := by simp [stepEntry, hb]
      rw [hdesc]
      have hfc : (t :: ts).filter (fun s => s != "")
          = t :: ts.filter (fun s => s != "") := by
        simp [List.filter_cons, h]
      rw [hfc, getLast?_cons_or]
      cases hx : (ts.filter fun s => s != "").getLast? <;> rfl

/-! ## Claim theorems -/

/-- The registry after the two-event run `module a.b` then `function
a.b.f` (the module event first, per the ordering contract). -/
def dottedModuleRun : Registry :=
  (process_docstring ((process_docstring [] "module" "a.b" none []).1)
    "function" "a.b.f" none []).1

/-- C1 (code bug): after processing `module a.b` and then `function
a.b.f`, the synthetic Global holder — the record whose `uid` is
`a.b.Global` — still has an empty children list, and the function's uid
appears in no record's children list at all.  The holder is created with
`name` equal to `lastSeg module + ".Global"` (here `b.Global`) while the
linker's function rule compares `name` against `module + ".Global"` (here
`a.b.Global`), so for any module whose name contains a dot the rule never
fires, contradicting the source's own intent ("Insert Global class to
hold functions"). -/
theorem function_not_linked_under_dotted_module :
    ((registryGetD dottedModuleRun "a.b").find? fun r =>
        r.uid == "a.b.Global").map (fun r => r.children) = some (some [])
    ∧ ∀ r ∈ registryGetD dottedModuleRun "a.b",
        "a.b.f" ∉ r.children.getD [] := by
  decide

/-- C2: one call of the hierarchy linker either changes nothing (no
candidate matches) or rewrites exactly the first matching record,
appending the new uid once to that record's children and leaving every
other record untouched — so a single insertion event adds the child to at
most one parent and never twice. -/
theorem insert_children_first_match (t : String) (d : Datam) (l : List Datam) :
    (insert_children t d l = l ∧ ∀ o ∈ l, matchesRule t d o = false)
    ∨ (∃ l₁ o l₂, l = l₁ ++ o :: l₂
        ∧ (∀ o' ∈ l₁, matchesRule t d o' = false)
        ∧ matchesRule t d o = true
        ∧ insert_children t d l = l₁ ++ appendChild d.uid o :: l₂) := by
  induction l with
  | nil => exact Or.inl ⟨rfl, by simp⟩
  | cons a rest ih =>
    by_cases h : matchesRule t d a
    · exact Or.inr ⟨[], a, rest, rfl, by simp, h, by simp [insert_children, h]⟩
    · rcases ih with ⟨heq, hall⟩ | ⟨l₁, o, l₂, hsplit, hnone, hm, heq⟩
      · refine Or.inl ⟨by simp [insert_children, h, heq], ?_⟩
        intro o ho
        rcases List.mem_cons.mp ho with rfl | ho
        · simpa using h
        · exact hall o ho
      · refine Or.inr ⟨a :: l₁, o, l₂, by rw [hsplit, List.cons_append], ?_, hm, ?_⟩
        · intro o' ho'
          rcases List.mem_cons.mp ho' with rfl | ho'
          · simpa using h
          · exact hnone o' ho'
        · simp [insert_children, h, heq]

/-- C4 (code bug): a variable entry whose name has no declared type in
the type table is emitted with a `type` key holding the one-element list
`[None]` — the variable branch appends the `None` declared type into
`_para_types` unconditionally, so `make_param` sees a non-empty (truthy)
list and keeps the key, instead of omitting it as it does for an empty
list. -/
theorem variable_without_type_gets_none_list :
    (get_data_structure [.variableE [("v", "the var")]] [] []).vars
      = [{ id := "v", description := "the var", type := some [none] }]
    ∧ (some [none] : Option (List (Option String))) ≠ none := by
  decide

/-- C6: the inheritance resolver flattens the whole ancestor set of a
record into its inheritance list in depth-first order over declared
bases, each ancestor's fully qualified name appended before recursing
into it; for a class X with acyclic chain A → B → C the list is exactly
[A, B, C]. -/
theorem inheritance_flattens_ancestor_chain :
    (∀ (o : PyObj) (acc : List String),
        insert_inheritance o acc = acc ++ dfsFlatten o)
    ∧ insert_inheritance
        (.mk "pkg.X" (.cons (.mk "A"
          (.cons (.mk "B" (.cons (.mk "C" .nil) .nil)) .nil)) .nil)) []
      = ["A", "B", "C"] := by
  exact ⟨insert_inheritance_eq_flatten, by decide⟩

/-- C5: every `returntype` entry splits each truthy rendered text on the
`' or[ \n]'` separator, strips a single leading `@` or `~` sigil and the
trailing newline from each candidate, and appends the candidates to the
return type list without overwriting what is already there; across
several entries the candidates accumulate in order, and `int or str`
yields [int, str]. -/
theorem returntype_split_accumulate :
    (∀ (tt : TypeTable) (raises : List String) (d : DataBlock)
        (ts : List String),
        (stepEntry tt raises d (.returntypeE ts)).ret.type.getD []
          = d.ret.type.getD [] ++ retCandidates ts)
    ∧ (∀ (tt : TypeTable) (raises : List String) (ts₁ ts₂ : List String),
        (get_data_structure [.returntypeE ts₁, .returntypeE ts₂]
            tt raises).ret.type.getD []
          = retCandidates ts₁ ++ retCandidates ts₂)
    ∧ retCandidates ["int or str"] = ["int", "str"]
    ∧ (get_data_structure [.returntypeE ["int or str"]] [] []).ret.type
      = some ["int", "str"]
    ∧ returnNormalize "@mypkg.Foo" = "mypkg.Foo"
    ∧ returnNormalize "~mypkg.Foo" = "mypkg.Foo"
    ∧ returnNormalize "int\n" = "int" := by
  refine ⟨fun tt raises d ts => (stepEntry_returntype tt raises d ts).1,
    fun tt raises ts₁ ts₂ => ?_, by decide, by decide, by decide, by decide,
    by decide⟩
  show (stepEntry tt raises (stepEntry tt raises {} (.returntypeE ts₁))
      (.returntypeE ts₂)).ret.type.getD [] = _
  rw [(stepEntry_returntype tt raises _ ts₂).1,
    (stepEntry_returntype tt raises {} ts₁).1]
  rfl

/-- C9 (amended): across a run of `returnvalue` entries the stored
`return.description` is the rendered description of the last entry whose
rendered text is non-empty (an entry rendering to empty text never
overwrites, because of the truthiness guard); when every entry renders
empty, no description is stored. -/
theorem returnvalue_last_nonempty (tt : TypeTable) (raises : List String)
    (ts : List String) :
    (get_data_structure (ts.map Entry.returnvalueE) tt raises).ret.description
      = (ts.filter fun s => s != "").getLast? := by
  have h := foldl_returnvalue_desc tt raises ts {}
  rw [get_data_structure, h]
  cases hx : (ts.filter fun s => s != "").getLast? <;> rfl

/-- C9 (counterexample): with the entries `returnvalue "a"` then
`returnvalue ""`, the stored description is `"a"`, not the rendered
description `""` of the last occurrence — the last occurrence does not
overwrite when it is empty. -/
theorem returnvalue_empty_last_ignored :
    (get_data_structure [.returnvalueE "a", .returnvalueE ""] []
        []).ret.description = some "a"
    ∧ (get_data_structure [.returnvalueE "a", .returnvalueE ""] []
        []).ret.description ≠ some "" := by
  decide

/-- C3 (counterexample): a parameter whose declared type is the
sigil-less text `mypkg.Bar` followed by a newline keeps its trailing
newline — the emitted candidate is not `mypkg.Bar`, because the parameter
branch runs `rstrip` only inside the sigil test, unlike the return-type
branch. -/
theorem param_type_newline_kept :
    (get_data_structure [.parameterE [("x", "d")]]
        [("parameter", [("x", "mypkg.Bar\n")])] []).parameters
      = [{ id := "x", description := "d", type := some [some "mypkg.Bar\n"] }]
    ∧ some "mypkg.Bar\n" ≠ some "mypkg.Bar" := by
  decide

/-- C3 (amended): a parameter entry with a declared type splits the text
on the `' or[ \n]'` separator like return types and strips a single
leading `@` or `~` sigil, but the trailing newline is stripped only from
candidates that carried a sigil; on sigiled candidates the parameter
normalization agrees with the return-type normalization, while a
sigil-less candidate is passed through unchanged, newline included. -/
theorem param_type_split_amended (x desc tv : String) (tt : TypeTable)
    (h : lookupType tt "parameter" x = some tv) (hne : (tv == "") = false) :
    (get_data_structure [.parameterE [(x, desc)]] tt []).parameters
      = [make_param x desc ((splitOr tv).map fun s => some (paramNormalize s))]
    ∧ (∀ s : String, (pyStartsWith s '@' || pyStartsWith s '~') = true
        → paramNormalize s = returnNormalize s)
    ∧ paramNormalize "mypkg.Bar\n" = "mypkg.Bar\n"
    ∧ returnNormalize "mypkg.Bar\n" = "mypkg.Bar"
    ∧ paramNormalize "@mypkg.Bar\n" = "mypkg.Bar" := by
  have hne3 : ¬tv = "" := by simpa using hne
  refine ⟨?_, ?_, by decide, by decide, by decide⟩
  · simp [get_data_structure, stepEntry, paramTypes, h, hne, hne3]
  · intro s hs
    have hnil : s.data ≠ [] := by
      intro e
      rw [pyStartsWith, pyStartsWith, e] at hs
      simp at hs
    have hne2 : (s == "") = false := by
      cases e : s == ""
      · rfl
      · exact absurd (congrArg String.data (eq_of_beq e)) hnil
    rw [paramNormalize, returnNormalize]
    simp [hne2, hs]
    intro e
    exact absurd (congrArg String.data e) hnil

/-- C3 witness: the amended statement instantiated at the sigiled input
`@mypkg.Bar` plus newline. -/
theorem param_type_split_amended_witness :
    (get_data_structure [.parameterE [("x", "d")]]
        [("parameter", [("x", "@mypkg.Bar\n")])] []).parameters
      = [make_param "x" "d"
          ((splitOr "@mypkg.Bar\n").map fun s => some (paramNormalize s))]
    ∧ (∀ s : String, (pyStartsWith s '@' || pyStartsWith s '~') = true
        → paramNormalize s = returnNormalize s)
    ∧ paramNormalize "mypkg.Bar\n" = "mypkg.Bar\n"
    ∧ returnNormalize "mypkg.Bar\n" = "mypkg.Bar"
    ∧ paramNormalize "@mypkg.Bar\n" = "mypkg.Bar" :=
  param_type_split_amended "x" "d" "@mypkg.Bar\n"
    [("parameter", [("x", "@mypkg.Bar\n")])] rfl rfl

/-- C7: the owning (class, module) pair is computed from the kind exactly
as the table states — function, exception and class take the name minus
its last dotted segment as module and no class; method and attribute take
the name minus its last segment as class and minus its last two as
module; a module is its own name; any other kind resolves to neither —
and an event whose module is unresolved (Python `None`, and likewise the
falsy empty string) is not inserted: the registry is returned unchanged
with the non-fatal `Unknown Type` diagnostic. -/
theorem owner_table_and_unresolved_drop :
    (∀ name : String, get_cls_module "function" name
        = (none, some (joinDot ((splitDot name).dropLast))))
    ∧ (∀ name : String, get_cls_module "exception" name
        = (none, some (joinDot ((splitDot name).dropLast))))
    ∧ (∀ name : String, get_cls_module "class" name
        = (none, some (joinDot ((splitDot name).dropLast))))
    ∧ (∀ name : String, get_cls_module "method" name
        = (some (joinDot ((splitDot name).dropLast)),
           some (joinDot ((splitDot name).dropLast.dropLast))))
    ∧ (∀ name : String, get_cls_module "attribute" name
        = (some (joinDot ((splitDot name).dropLast)),
           some (joinDot ((splitDot name).dropLast.dropLast))))
    ∧ (∀ name : String, get_cls_module "module" name = (none, some name))
    ∧ (∀ t name : String,
        t ∉ (["function", "exception", "method", "attribute", "class",
          "module"] : List String)
        → get_cls_module t name = (none, none))
    ∧ (∀ (reg : Registry) (t name : String) (bases : Option PyBases)
        (lines : List String), (get_cls_module t name).2 = none
        → process_docstring reg t name bases lines
          = (reg, some ("Unknown Type: " ++ t)))
    ∧ (∀ (reg : Registry) (t name : String) (bases : Option PyBases)
        (lines : List String), (get_cls_module t name).2 = some ""
        → process_docstring reg t name bases lines
          = (reg, some ("Unknown Type: " ++ t))) := by
  refine ⟨fun name => by simp [get_cls_module],
    fun name => by simp [get_cls_module],
    fun name => by simp [get_cls_module],
    fun name => by simp [get_cls_module],
    fun name => by simp [get_cls_module],
    fun name => by simp [get_cls_module], ?_, ?_, ?_⟩
  · intro t name h
    simp only [List.mem_cons, List.not_mem_nil, or_false, not_or] at h
    obtain ⟨h1, h2, h3, h4, h5, h6⟩ := h
    simp [get_cls_module, h1, h2, h3, h4, h5, h6]
  · intro reg t name bases lines h
    rw [process_docstring]
    simp only [h]
  · intro reg t name bases lines h
    rw [process_docstring]
    simp only [h]
    rfl

/-- C7 witness: a `data` kind resolves no module and is dropped with the
diagnostic, leaving the registry unchanged. -/
theorem owner_table_and_unresolved_drop_witness :
    process_docstring [] "data" "x.y" none []
      = ([], some "Unknown Type: data") :=
  owner_table_and_unresolved_drop.2.2.2.2.2.2.2.1 [] "data" "x.y" none []
    (by decide)

/-- C8: the deletion loop closing `transform_all` keeps exactly the
non-falsy values — every key stored survives with a truthy value, every
truthy pair of the assembled dict survives — so a record whose
parameters, variables, exceptions and return are all empty stores none of
those keys. -/
theorem transform_all_prunes_empty :
    (∀ (extras : List (String × PyVal)) (db : DataBlock)
        (summary : List String) (kv : String × PyVal),
        kv ∈ transformAllStored extras db summary
        → pyFalsy kv.2 = false
          ∧ kv ∈ extras ++ dataPairs db ++ summaryPairs summary)
    ∧ (∀ (extras : List (String × PyVal)) (db : DataBlock)
        (summary : List String) (kv : String × PyVal),
        kv ∈ extras ++ dataPairs db ++ summaryPairs summary
        → pyFalsy kv.2 = false
        → kv ∈ transformAllStored extras db summary)
    ∧ (∀ db : DataBlock, db.parameters = [] → db.vars = []
        → db.exceptions = [] → db.ret = {}
        → transformAllStored [] db [] = []) := by
  refine ⟨?_, ?_, ?_⟩
  · intro extras db summary kv hkv
    have h := List.mem_filter.mp hkv
    exact ⟨by simpa using h.2, h.1⟩
  · intro extras db summary kv hkv hf
    exact List.mem_filter.mpr ⟨hkv, by simp [hf]⟩
  · intro db h1 h2 h3 h4
    obtain ⟨p, v, e, r⟩ := db
    simp only at h1 h2 h3 h4
    subst h1; subst h2; subst h3; subst h4
    rfl

/-- C8 witness: the all-empty block stores nothing. -/
theorem transform_all_prunes_empty_witness :
    transformAllStored [] {} [] = [] :=
  transform_all_prunes_empty.2.2 {} rfl rfl rfl rfl

/-- C10: every kind that reaches `_create_datam` through
`process_docstring` (its computed module is not `None`) is a key of
`TYPE_MAPPING`, so the dict lookup succeeds and returns the mapped type;
the `except TypeError` fallback assigning `mapped_type = _type` is
unreachable (and a missing key would raise `KeyError`, which that handler
does not catch). -/
theorem type_mapping_lookup_total (t name : String)
    (h : (get_cls_module t name).2 ≠ none) :
    ∃ m, lookupTypeMapping t = some m
      ∧ createDatamMappedType t = Except.ok m := by
  rw [get_cls_module] at h
  by_cases h1 : t = "function" ∨ t = "exception"
  · rcases h1 with rfl | rfl
    · exact ⟨"Method", rfl, rfl⟩
    · exact ⟨"Class", rfl, rfl⟩
  · rw [if_neg h1] at h
    by_cases h2 : t = "method" ∨ t = "attribute"
    · rcases h2 with rfl | rfl
      · exact ⟨"Method", rfl, rfl⟩
      · exact ⟨"Property", rfl, rfl⟩
    · rw [if_neg h2] at h
      by_cases h3 : t = "class"
      · subst h3; exact ⟨"Class", rfl, rfl⟩
      · rw [if_neg h3] at h
        by_cases h4 : t = "module"
        · subst h4; exact ⟨"Namespace", rfl, rfl⟩
        · rw [if_neg h4] at h
          exact absurd rfl h

/-- C10 witness: the function kind, reachable through
`process_docstring`, maps to Method. -/
theorem type_mapping_lookup_total_witness :
    ∃ m, lookupTypeMapping "function" = some m
      ∧ createDatamMappedType "function" = Except.ok m :=
  type_mapping_lookup_total "function" "pkg.f" (by decide)

end DocfxYaml
